import Mathlib

/-!
Verification of the EWMA streaming anomaly detector
(`src/EfficientDataStreamAnomalyDetection.py`, class `EWMADetector`).

The detector keeps a bootstrap buffer (`data_window`, a deque with
`maxlen = window_size`), an optional running mean (`ewma`) and an optional
running mean of squared deviations (`mse`).  Each call to `update` appends
the sample, returns `false` while the buffer is not yet full, performs a
one-time batch initialization on the call that first fills the buffer, and
afterwards applies exponential smoothing; the verdict compares the absolute
deviation of the sample from the just-updated mean against
`threshold_multiplier * sqrt(mse)`.

Numbers are modelled by exact rationals (the source uses IEEE doubles; the
spec states its numeric properties "to floating-point tolerance", so we
verify the ideal real-arithmetic recurrence).  The single square root in the
source is handled by an exact Boolean encoding `anomalyDecision` of the real
comparison `|value - ewma| > k * sqrt(mse)`; theorem
`anomalyDecision_eq_true_iff` proves the encoding equal to the `Real.sqrt`
comparison whenever `mse ≥ 0` (the domain on which `math.sqrt` is defined).
-/

/-- State of `EWMADetector` (source lines 80-85).  `data_window` lists the
buffered samples oldest first (a `collections.deque` with
`maxlen = window_size`); `ewma` and `mse` are `None` until the first full
window, modelled by `Option`. -/
structure EWMADetector where
  window_size : ℕ
  smoothing_factor : ℚ
  threshold_multiplier : ℚ
  data_window : List ℚ
  ewma : Option ℚ
  mse : Option ℚ
  deriving Repr, DecidableEq

/-- Constructor `EWMADetector.__init__` (source lines 69-85): it only stores
the three configuration parameters and starts with an empty buffer and
absent estimates.  The source performs no validation of the parameters.
(The source's Python defaults are `window_size=30`, `smoothing_factor=0.2`,
`threshold_multiplier=2`.) -/
def mkEWMADetector (window_size : ℕ) (smoothing_factor threshold_multiplier : ℚ) :
    EWMADetector :=
  { window_size := window_size
    smoothing_factor := smoothing_factor
    threshold_multiplier := threshold_multiplier
    data_window := []
    ewma := none
    mse := none }

/-- Append on a `collections.deque` with `maxlen`: the new element goes to
the right; if the length would exceed `maxlen`, elements are discarded from
the left (source line 99, `self.data_window.append(value)`). -/
def dequeAppend (maxlen : ℕ) (d : List ℚ) (v : ℚ) : List ℚ :=
  let d := d ++ [v]
  if maxlen < d.length then d.drop (d.length - maxlen) else d

/-- Exact rational encoding of the verdict computed on source lines 115-116:
`threshold = threshold_multiplier * math.sqrt(mse)` followed by
`abs(value - ewma) > threshold`.  Here `k` is the multiplier, `ms` the
current `mse` and `d = value - ewma`.  For `ms ≥ 0` the real comparison
`|d| > k * sqrt(ms)` holds iff `k < 0 ∧ 0 < ms` (negative threshold) or
`k^2 * ms < d^2` (both sides nonnegative, squaring is monotone); theorem
`anomalyDecision_eq_true_iff` below proves this equivalence against
`Real.sqrt`. -/
def anomalyDecision (k ms d : ℚ) : Bool :=
  decide ((k < 0 ∧ 0 < ms) ∨ k ^ 2 * ms < d ^ 2)

/-- `EWMADetector.update` (source lines 87-122).  Returns the new state and
the Boolean verdict.  Line 99 appends to the deque; lines 102-103 return
`False` while the buffer holds fewer than `window_size` samples; lines
106-108 batch-initialize `ewma` and `mse` from the full window on the first
full-window call; lines 111-112 otherwise apply the exponential-smoothing
recurrence (note the variance term uses the just-updated `ewma`); lines
115-116 compute the verdict.  The source reads `self.mse` on line 112
without a `None` check (it branches only on `self.ewma`); in every reachable
state `mse` is present whenever `ewma` is (see the joint-initialization
invariant below), so the `getD 0` default is never exercised there. -/
def EWMADetector.update (s : EWMADetector) (value : ℚ) : EWMADetector × Bool :=
  let dw := dequeAppend s.window_size s.data_window value
  if dw.length < s.window_size then
    ({ s with data_window := dw }, false)
  else
    match s.ewma with
    | none =>
        let e := dw.sum / (s.window_size : ℚ)
        let ms := (dw.map (fun x => (x - e) ^ 2)).sum / (s.window_size : ℚ)
        ({ s with data_window := dw, ewma := some e, mse := some ms },
          anomalyDecision s.threshold_multiplier ms (value - e))
    | some e0 =>
        let e := s.smoothing_factor * value + (1 - s.smoothing_factor) * e0
        let ms := s.smoothing_factor * (value - e) ^ 2
          + (1 - s.smoothing_factor) * (s.mse.getD 0)
        ({ s with data_window := dw, ewma := some e, mse := some ms },
          anomalyDecision s.threshold_multiplier ms (value - e))

/-- Feed a finite list of samples to the detector one `update` call at a
time, in order, collecting the verdicts (the caller loop of the source's
`main`, stripped of its plotting scaffolding). -/
def EWMADetector.run : EWMADetector → List ℚ → EWMADetector × List Bool
  | s, [] => (s, [])
  | s, v :: vs =>
      match s.update v with
      | (s1, b) =>
          match EWMADetector.run s1 vs with
          | (s2, bs) => (s2, b :: bs)

/-! ### Basic lemmas about the deque and the run loop -/

theorem dequeAppend_length (maxlen : ℕ) (d : List ℚ) (v : ℚ) :
    (dequeAppend maxlen d v).length = min (d.length + 1) maxlen := by
  simp only [dequeAppend]
  by_cases h : maxlen < (d ++ [v]).length
  · rw [if_pos h, List.length_drop]
    simp only [List.length_append, List.length_singleton] at h ⊢
    omega
  · rw [if_neg h]
    simp only [List.length_append, List.length_singleton] at h ⊢
    omega

theorem update_bootstrap (s : EWMADetector) (v : ℚ)
    (h : s.data_window.length + 1 < s.window_size) :
    s.update v = ({ s with data_window := s.data_window ++ [v] }, false) := by
  unfold EWMADetector.update dequeAppend
  have h1 : ¬ s.window_size < (s.data_window ++ [v]).length := by
    simp only [List.length_append, List.length_singleton]; omega
  have h2 : (s.data_window ++ [v]).length < s.window_size := by
    simp only [List.length_append, List.length_singleton]; omega
  simp only [if_neg h1, if_pos h2]

theorem run_bootstrap (xs : List ℚ) : ∀ s : EWMADetector,
    s.data_window.length + xs.length < s.window_size →
    s.run xs = ({ s with data_window := s.data_window ++ xs },
                List.replicate xs.length false) := by
  induction xs with
  | nil => intro s h; simp [EWMADetector.run]
  | cons v vs ih =>
      intro s h
      have hv : s.update v = ({ s with data_window := s.data_window ++ [v] }, false) := by
        apply update_bootstrap
        simp only [List.length_cons] at h
        omega
      have hrec := ih { s with data_window := s.data_window ++ [v] } (by
        show (s.data_window ++ [v]).length + vs.length < s.window_size
        simp only [List.length_cons] at h
        simp only [List.length_append, List.length_singleton]
        omega)
      simp only [EWMADetector.run, hv, hrec, List.length_cons, List.replicate_succ,
        List.append_assoc, List.singleton_append]

theorem run_append (xs ys : List ℚ) : ∀ s : EWMADetector,
    s.run (xs ++ ys) =
      (((s.run xs).1.run ys).1, (s.run xs).2 ++ ((s.run xs).1.run ys).2) := by
  induction xs with
  | nil => intro s; simp [EWMADetector.run]
  | cons v vs ih =>
      intro s
      simp only [List.cons_append, EWMADetector.run]
      rcases hu : s.update v with ⟨s1, b⟩
      simp only [List.append_eq, ih s1, List.cons_append]

theorem run_verdicts_length (xs : List ℚ) : ∀ s : EWMADetector,
    (s.run xs).2.length = xs.length := by
  induction xs with
  | nil => intro s; simp [EWMADetector.run]
  | cons v vs ih =>
      intro s
      simp only [EWMADetector.run]
      rcases hu : s.update v with ⟨s1, b⟩
      simp only [List.length_cons, ih s1]

theorem update_steady (s : EWMADetector) (v e0 : ℚ) (he : s.ewma = some e0)
    (hlen : s.window_size ≤ s.data_window.length) :
    s.update v =
      ({ s with
          data_window := dequeAppend s.window_size s.data_window v,
          ewma := some (s.smoothing_factor * v + (1 - s.smoothing_factor) * e0),
          mse := some (s.smoothing_factor *
              (v - (s.smoothing_factor * v + (1 - s.smoothing_factor) * e0)) ^ 2
            + (1 - s.smoothing_factor) * (s.mse.getD 0)) },
        anomalyDecision s.threshold_multiplier
          (s.smoothing_factor *
              (v - (s.smoothing_factor * v + (1 - s.smoothing_factor) * e0)) ^ 2
            + (1 - s.smoothing_factor) * (s.mse.getD 0))
          (v - (s.smoothing_factor * v + (1 - s.smoothing_factor) * e0))) := by
  have hgate : ¬ (dequeAppend s.window_size s.data_window v).length < s.window_size := by
    rw [dequeAppend_length]; omega
  simp only [EWMADetector.update, if_neg hgate, he]

theorem update_first_full (s : EWMADetector) (v : ℚ) (he : s.ewma = none)
    (hlen : s.window_size ≤ s.data_window.length + 1) :
    s.update v =
      ({ s with
          data_window := dequeAppend s.window_size s.data_window v,
          ewma := some ((dequeAppend s.window_size s.data_window v).sum /
            (s.window_size : ℚ)),
          mse := some (((dequeAppend s.window_size s.data_window v).map
              (fun x => (x - (dequeAppend s.window_size s.data_window v).sum /
                (s.window_size : ℚ)) ^ 2)).sum / (s.window_size : ℚ)) },
        anomalyDecision s.threshold_multiplier
          (((dequeAppend s.window_size s.data_window v).map
              (fun x => (x - (dequeAppend s.window_size s.data_window v).sum /
                (s.window_size : ℚ)) ^ 2)).sum / (s.window_size : ℚ))
          (v - (dequeAppend s.window_size s.data_window v).sum /
            (s.window_size : ℚ))) := by
  have hgate : ¬ (dequeAppend s.window_size s.data_window v).length < s.window_size := by
    rw [dequeAppend_length]; omega
  simp only [EWMADetector.update, if_neg hgate, he]

/-- Correctness of the rational encoding of the verdict against the real
square-root comparison of source lines 115-116: for `ms ≥ 0` (the domain of
`math.sqrt`), `anomalyDecision k ms d` is `true` exactly when
`|d| > k * sqrt(ms)` over the real numbers. -/
theorem anomalyDecision_eq_true_iff (k ms d : ℚ) (h : 0 ≤ ms) :
    anomalyDecision k ms d = true ↔
      (k : ℝ) * Real.sqrt (ms : ℝ) < |(d : ℝ)| := by
  have hms : (0 : ℝ) ≤ (ms : ℝ) := by exact_mod_cast h
  have hsq : Real.sqrt (ms : ℝ) ^ 2 = (ms : ℝ) := Real.sq_sqrt hms
  have hsn : 0 ≤ Real.sqrt (ms : ℝ) := Real.sqrt_nonneg _
  rw [anomalyDecision, decide_eq_true_eq]
  constructor
  · rintro (⟨hk, hpos⟩ | hlt)
    · have hkR : (k : ℝ) < 0 := by exact_mod_cast hk
      have hsp : 0 < Real.sqrt (ms : ℝ) :=
        Real.sqrt_pos.mpr (by exact_mod_cast hpos)
      exact lt_of_lt_of_le (mul_neg_of_neg_of_pos hkR hsp) (abs_nonneg _)
    · have hltR : (k : ℝ) ^ 2 * (ms : ℝ) < (d : ℝ) ^ 2 := by exact_mod_cast hlt
      by_contra hc
      push_neg at hc
      have hsq2 : |(d : ℝ)| ^ 2 ≤ ((k : ℝ) * Real.sqrt (ms : ℝ)) ^ 2 :=
        pow_le_pow_left₀ (abs_nonneg _) hc 2
      rw [mul_pow, hsq, sq_abs] at hsq2
      linarith
  · intro hlt
    rcases lt_or_le k 0 with hk | hk
    · rcases eq_or_lt_of_le h with hms0 | hpos
      · right
        have hz : (ms : ℝ) = 0 := by exact_mod_cast hms0.symm
        rw [hz, Real.sqrt_zero, mul_zero] at hlt
        have hdne : (d : ℝ) ≠ 0 := by
          intro h0; rw [h0, abs_zero] at hlt; exact lt_irrefl 0 hlt
        have hdq : d ≠ 0 := by exact_mod_cast hdne
        have hd2 : 0 < d ^ 2 :=
          lt_of_le_of_ne (sq_nonneg d) (Ne.symm (pow_ne_zero 2 hdq))
        rw [← hms0, mul_zero]
        exact hd2
      · exact Or.inl ⟨hk, hpos⟩
    · right
      have hkR : (0 : ℝ) ≤ (k : ℝ) := by exact_mod_cast hk
      have ht : 0 ≤ (k : ℝ) * Real.sqrt (ms : ℝ) := mul_nonneg hkR hsn
      have h2 : ((k : ℝ) * Real.sqrt (ms : ℝ)) ^ 2 < |(d : ℝ)| ^ 2 := by
        have := lt_of_le_of_lt ht hlt
        nlinarith [abs_nonneg (d : ℝ)]
      rw [mul_pow, hsq, sq_abs] at h2
      exact_mod_cast h2

/-! ### Invariant lemmas: configuration immutability, non-negative variance,
joint and irreversible initialization -/

theorem update_config_eq (s : EWMADetector) (v : ℚ) :
    (s.update v).1.window_size = s.window_size ∧
    (s.update v).1.smoothing_factor = s.smoothing_factor ∧
    (s.update v).1.threshold_multiplier = s.threshold_multiplier := by
  simp only [EWMADetector.update]
  by_cases h : (dequeAppend s.window_size s.data_window v).length < s.window_size
  · simp [if_pos h]
  · simp only [if_neg h]
    cases he : s.ewma <;> simp

theorem update_mse_nonneg (s : EWMADetector) (v : ℚ)
    (h0 : 0 ≤ s.smoothing_factor) (h1 : s.smoothing_factor ≤ 1)
    (hm : ∀ m, s.mse = some m → 0 ≤ m) :
    ∀ m, (s.update v).1.mse = some m → 0 ≤ m := by
  intro m hsome
  simp only [EWMADetector.update] at hsome
  by_cases h : (dequeAppend s.window_size s.data_window v).length < s.window_size
  · simp only [if_pos h] at hsome
    exact hm m hsome
  · simp only [if_neg h] at hsome
    cases he : s.ewma with
    | none =>
        rw [he] at hsome
        simp only [Option.some.injEq] at hsome
        subst hsome
        apply div_nonneg _ (by positivity)
        apply List.sum_nonneg
        intro a ha
        rcases List.mem_map.mp ha with ⟨x, _, hx⟩
        rw [← hx]
        positivity
    | some e0 =>
        rw [he] at hsome
        simp only [Option.some.injEq] at hsome
        subst hsome
        have hgd : 0 ≤ s.mse.getD 0 := by
          cases hms : s.mse with
          | none => simp
          | some m0 => simpa using hm m0 hms
        have h1' : 0 ≤ 1 - s.smoothing_factor := by linarith
        positivity

theorem update_ewma_isSome (s : EWMADetector) (v : ℚ)
    (h : s.ewma.isSome = true) : (s.update v).1.ewma.isSome = true := by
  simp only [EWMADetector.update]
  by_cases hg : (dequeAppend s.window_size s.data_window v).length < s.window_size
  · simp only [if_pos hg]; exact h
  · simp only [if_neg hg]
    cases he : s.ewma <;> simp

theorem update_mse_isSome (s : EWMADetector) (v : ℚ)
    (h : s.mse.isSome = true) : (s.update v).1.mse.isSome = true := by
  simp only [EWMADetector.update]
  by_cases hg : (dequeAppend s.window_size s.data_window v).length < s.window_size
  · simp only [if_pos hg]; exact h
  · simp only [if_neg hg]
    cases he : s.ewma <;> simp

theorem update_joint (s : EWMADetector) (v : ℚ)
    (h : s.ewma.isSome = s.mse.isSome) :
    (s.update v).1.ewma.isSome = (s.update v).1.mse.isSome := by
  simp only [EWMADetector.update]
  by_cases hg : (dequeAppend s.window_size s.data_window v).length < s.window_size
  · simp only [if_pos hg]; exact h
  · simp only [if_neg hg]
    cases he : s.ewma <;> simp

theorem run_ewma_isSome (xs : List ℚ) : ∀ s : EWMADetector,
    s.ewma.isSome = true → ((s.run xs).1.ewma.isSome = true) := by
  induction xs with
  | nil => intro s h; simpa [EWMADetector.run] using h
  | cons v vs ih =>
      intro s h
      simp only [EWMADetector.run]
      rcases hu : s.update v with ⟨s1, b⟩
      have h1 : s1.ewma.isSome = true := by
        have := update_ewma_isSome s v h; rw [hu] at this; exact this
      simpa using ih s1 h1

theorem run_mse_isSome (xs : List ℚ) : ∀ s : EWMADetector,
    s.mse.isSome = true → ((s.run xs).1.mse.isSome = true) := by
  induction xs with
  | nil => intro s h; simpa [EWMADetector.run] using h
  | cons v vs ih =>
      intro s h
      simp only [EWMADetector.run]
      rcases hu : s.update v with ⟨s1, b⟩
      have h1 : s1.mse.isSome = true := by
        have := update_mse_isSome s v h; rw [hu] at this; exact this
      simpa using ih s1 h1

theorem run_joint (xs : List ℚ) : ∀ s : EWMADetector,
    s.ewma.isSome = s.mse.isSome →
    ((s.run xs).1.ewma.isSome = (s.run xs).1.mse.isSome) := by
  induction xs with
  | nil => intro s h; simpa [EWMADetector.run] using h
  | cons v vs ih =>
      intro s h
      simp only [EWMADetector.run]
      rcases hu : s.update v with ⟨s1, b⟩
      have h1 : s1.ewma.isSome = s1.mse.isSome := by
        have := update_joint s v h; rw [hu] at this; exact this
      simpa using ih s1 h1

theorem run_smoothing_eq (xs : List ℚ) : ∀ s : EWMADetector,
    (s.run xs).1.smoothing_factor = s.smoothing_factor := by
  induction xs with
  | nil => intro s; simp [EWMADetector.run]
  | cons v vs ih =>
      intro s
      simp only [EWMADetector.run]
      rcases hu : s.update v with ⟨s1, b⟩
      have h1 : s1.smoothing_factor = s.smoothing_factor := by
        have := (update_config_eq s v).2.1; rw [hu] at this; exact this
      simpa [h1] using ih s1

theorem run_mse_nonneg (xs : List ℚ) : ∀ s : EWMADetector,
    0 ≤ s.smoothing_factor → s.smoothing_factor ≤ 1 →
    (∀ m, s.mse = some m → 0 ≤ m) →
    ∀ m, (s.run xs).1.mse = some m → 0 ≤ m := by
  induction xs with
  | nil => intro s _ _ hm; simpa [EWMADetector.run] using hm
  | cons v vs ih =>
      intro s h0 h1 hm
      simp only [EWMADetector.run]
      rcases hu : s.update v with ⟨s1, b⟩
      have hm1 : ∀ m, s1.mse = some m → 0 ≤ m := by
        have := update_mse_nonneg s v h0 h1 hm; rw [hu] at this; exact this
      have hsf : s1.smoothing_factor = s.smoothing_factor := by
        have := (update_config_eq s v).2.1; rw [hu] at this; exact this
      simpa using ih s1 (hsf ▸ h0) (hsf ▸ h1) hm1

theorem update_verdict_eq (s : EWMADetector) (value m1 m2 : ℚ)
    (hgate : s.window_size ≤ (dequeAppend s.window_size s.data_window value).length)
    (h1 : (s.update value).1.ewma = some m1)
    (h2 : (s.update value).1.mse = some m2) :
    (s.update value).2 = anomalyDecision s.threshold_multiplier m2 (value - m1) := by
  have hg : ¬ (dequeAppend s.window_size s.data_window value).length < s.window_size :=
    not_lt.mpr hgate
  cases he : s.ewma with
  | none =>
      simp only [EWMADetector.update, if_neg hg, he, Option.some.injEq] at h1 h2 ⊢
      rw [h2, h1]
  | some e0 =>
      simp only [EWMADetector.update, if_neg hg, he, Option.some.injEq] at h1 h2 ⊢
      rw [h2, h1]

/-! ### The claims -/

/-- Claim C1: in steady state (both estimates already present, hence the
buffer is full), `update` first sets the mean estimate to
`α * value + (1 - α) * old mean`, and then sets the variance estimate to
`α * (value - new mean)^2 + (1 - α) * old variance`, where the
squared-deviation term uses the just-updated mean, not the prior one
(source lines 109-112). -/
theorem C1_steady_state_recurrence (s : EWMADetector) (value e0 ms0 : ℚ)
    (he : s.ewma = some e0) (hms : s.mse = some ms0)
    (hlen : s.window_size ≤ s.data_window.length) :
    (s.update value).1.ewma
        = some (s.smoothing_factor * value + (1 - s.smoothing_factor) * e0) ∧
    (s.update value).1.mse
        = some (s.smoothing_factor *
            (value - (s.smoothing_factor * value + (1 - s.smoothing_factor) * e0)) ^ 2
          + (1 - s.smoothing_factor) * ms0) := by
  rw [update_steady s value e0 he hlen]
  simp [hms]

/-- Witness for C1 at a concrete steady-state detector and input. -/
theorem C1_steady_state_recurrence_witness :
    (({ window_size := 2, smoothing_factor := 1, threshold_multiplier := 2,
        data_window := [3, 4], ewma := some 3, mse := some 4 } : EWMADetector).update 5).1.ewma
        = some ((1 : ℚ) * 5 + (1 - 1) * 3) ∧
    (({ window_size := 2, smoothing_factor := 1, threshold_multiplier := 2,
        data_window := [3, 4], ewma := some 3, mse := some 4 } : EWMADetector).update 5).1.mse
        = some ((1 : ℚ) * (5 - ((1 : ℚ) * 5 + (1 - 1) * 3)) ^ 2 + (1 - 1) * 4) :=
  C1_steady_state_recurrence _ 5 3 4 rfl rfl (by decide)

/-- Claim C2: whenever a call to `update` passes the bootstrap gate (so the
estimates are present after the call), the returned verdict is `true` iff
`|value - mean_estimate| > threshold_multiplier * sqrt(variance_estimate)`,
where both estimates are the values just written by this call
(source lines 114-122).  `0 ≤ m2` expresses that the call is on the domain
of `math.sqrt`; it holds in every reachable state (claim C7). -/
theorem C2_verdict_iff_threshold (s : EWMADetector) (value m1 m2 : ℚ)
    (hgate : s.window_size ≤ (dequeAppend s.window_size s.data_window value).length)
    (h1 : (s.update value).1.ewma = some m1)
    (h2 : (s.update value).1.mse = some m2)
    (hnn : 0 ≤ m2) :
    (s.update value).2 = true ↔
      (s.threshold_multiplier : ℝ) * Real.sqrt (m2 : ℝ) < |(value : ℝ) - (m1 : ℝ)| := by
  rw [update_verdict_eq s value m1 m2 hgate h1 h2,
    anomalyDecision_eq_true_iff _ _ _ hnn]
  have hcast : ((value - m1 : ℚ) : ℝ) = (value : ℝ) - (m1 : ℝ) := by push_cast; ring
  rw [hcast]

/-- Witness for C2 at a concrete steady-state detector and input. -/
theorem C2_verdict_iff_threshold_witness :
    (0 : ℚ) ≤ (1 : ℚ) * (5 - ((1 : ℚ) * 5 + (1 - 1) * 3)) ^ 2 + (1 - 1) * 4 ∧
    ((({ window_size := 2, smoothing_factor := 1, threshold_multiplier := 2,
         data_window := [3, 4], ewma := some 3, mse := some 4 } : EWMADetector).update 5).2 = true ↔
      ((2 : ℚ) : ℝ) *
          Real.sqrt (((1 : ℚ) * (5 - ((1 : ℚ) * 5 + (1 - 1) * 3)) ^ 2 + (1 - 1) * 4 : ℚ) : ℝ)
        < |((5 : ℚ) : ℝ) - (((1 : ℚ) * 5 + (1 - 1) * 3 : ℚ) : ℝ)|) :=
  ⟨by norm_num,
   C2_verdict_iff_threshold _ 5 _ _ (by decide) rfl rfl (by norm_num)⟩

/-- Claim C3, counterexample: the constructor (source lines 69-85) performs
no validation at all.  Constructing with `window_size = 1`,
`smoothing_factor = 3/2` (= 1.5, outside `(0, 1]`) and
`threshold_multiplier = 0` — three of the four configurations the claim
says must be rejected — succeeds and yields an ordinary fresh state, and
with `smoothing_factor = 0` likewise; the resulting detector even processes
`update` calls normally (here the first call already fills the
`window_size = 1` buffer and batch-initializes the mean to the sample). -/
theorem C3_counterexample :
    mkEWMADetector 1 (3/2) 0 =
      { window_size := 1, smoothing_factor := 3/2, threshold_multiplier := 0,
        data_window := [], ewma := none, mse := none } ∧
    mkEWMADetector 30 0 2 =
      { window_size := 30, smoothing_factor := 0, threshold_multiplier := 2,
        data_window := [], ewma := none, mse := none } ∧
    ((mkEWMADetector 1 (3/2) 0).update 7).1.ewma = some 7 := by
  refine ⟨rfl, rfl, ?_⟩
  norm_num [mkEWMADetector, EWMADetector.update, dequeAppend]

/-- Claim C3 as amended: the constructor accepts every configuration,
including `window_size = 1`, `smoothing_factor = 0` or `3/2`, and
`threshold_multiplier = 0`; it stores the parameters unchanged and surfaces
no error, so rejecting an invalid configuration is left entirely to the
caller (source lines 69-85 contain only field assignments). -/
theorem C3_amended_no_validation (w : ℕ) (α k : ℚ) :
    mkEWMADetector w α k =
      { window_size := w, smoothing_factor := α, threshold_multiplier := k,
        data_window := [], ewma := none, mse := none } := rfl

/-- Claim C4: for every valid configuration and every input sequence, each
of the first `window_size - 1` calls to `update` returns `false`, whatever
the input values (source lines 99-103).  Call number `i + 1` (index `i`,
zero-based) is covered for every `i` with `i + 1 < window_size`. -/
theorem C4_bootstrap_blind_spot (w : ℕ) (α k : ℚ)
    (_hw : 2 ≤ w) (_hα0 : 0 < α) (_hα1 : α ≤ 1) (_hk : 0 < k)
    (xs : List ℚ) (i : ℕ) (hi : i + 1 < w) (hix : i < xs.length) :
    ((mkEWMADetector w α k).run xs).2[i]? = some false := by
  have htlen : (xs.take (i + 1)).length = i + 1 := by
    rw [List.length_take]; omega
  have hboot := run_bootstrap (xs.take (i + 1)) (mkEWMADetector w α k) (by
    show ([] : List ℚ).length + (xs.take (i + 1)).length < w
    simp only [List.length_nil, Nat.zero_add, htlen]
    omega)
  conv_lhs => rw [← List.take_append_drop (i + 1) xs, run_append]
  rw [hboot, htlen]
  dsimp only
  rw [List.getElem?_append_left (by simp : i < (List.replicate (i + 1) false).length),
    List.getElem?_eq_getElem (by simp : i < (List.replicate (i + 1) false).length)]
  simp

/-- Witness for C4 at a concrete configuration and input. -/
theorem C4_bootstrap_blind_spot_witness :
    ((mkEWMADetector 2 1 1).run [5]).2[0]? = some false :=
  C4_bootstrap_blind_spot 2 1 1 (by decide) (by decide) (by decide) (by decide)
    [5] 0 (by decide) (by decide)

theorem run_singleton (s : EWMADetector) (v : ℚ) :
    s.run [v] = ((s.update v).1, [(s.update v).2]) := by
  simp only [EWMADetector.run]

/-- Claim C5: on the call that first fills the bootstrap buffer to exactly
`window_size` entries, the mean estimate is initialized to the arithmetic
mean of the `window_size` buffered samples and the variance estimate to the
mean of the squared deviations of those samples from that mean, in one batch
computation (source lines 105-108; exact rational arithmetic stands in for
"to floating-point tolerance"). -/
theorem C5_batch_initialization (w : ℕ) (α k : ℚ)
    (hw : 2 ≤ w) (_hα0 : 0 < α) (_hα1 : α ≤ 1) (_hk : 0 < k)
    (xs : List ℚ) (hlen : xs.length = w) :
    ((mkEWMADetector w α k).run xs).1.ewma = some (xs.sum / (w : ℚ)) ∧
    ((mkEWMADetector w α k).run xs).1.mse
      = some ((xs.map (fun x => (x - xs.sum / (w : ℚ)) ^ 2)).sum / (w : ℚ)) := by
  have htake : (xs.take (w - 1)).length = w - 1 := by
    rw [List.length_take]; omega
  have hdrop : (xs.drop (w - 1)).length = 1 := by
    rw [List.length_drop]; omega
  obtain ⟨a, ha⟩ := List.length_eq_one.mp hdrop
  have hboot := run_bootstrap (xs.take (w - 1)) (mkEWMADetector w α k) (by
    show ([] : List ℚ).length + (xs.take (w - 1)).length < w
    simp only [List.length_nil, Nat.zero_add, htake]
    omega)
  have hstate : ((mkEWMADetector w α k).run xs).1
      = (({ mkEWMADetector w α k with
            data_window := xs.take (w - 1) } : EWMADetector).update a).1 := by
    conv_lhs => rw [← List.take_append_drop (w - 1) xs, run_append]
    rw [hboot, ha]
    dsimp only
    rw [run_singleton]
    dsimp only
    simp only [mkEWMADetector, List.nil_append]
  have hdw : dequeAppend w (xs.take (w - 1)) a = xs := by
    simp only [dequeAppend]
    rw [if_neg (by
      simp only [List.length_append, List.length_singleton, htake]
      omega)]
    conv_rhs => rw [← List.take_append_drop (w - 1) xs]
    rw [ha]
  have hupd := update_first_full
    ({ mkEWMADetector w α k with data_window := xs.take (w - 1) } : EWMADetector) a rfl (by
      show w ≤ (xs.take (w - 1)).length + 1
      rw [htake]; omega)
  rw [hstate, hupd]
  have hdw' : dequeAppend ({ mkEWMADetector w α k with
      data_window := xs.take (w - 1) } : EWMADetector).window_size
      ({ mkEWMADetector w α k with
      data_window := xs.take (w - 1) } : EWMADetector).data_window a = xs := hdw
  dsimp only
  rw [hdw']
  exact ⟨rfl, rfl⟩

/-- Witness for C5 at a concrete configuration and full window. -/
theorem C5_batch_initialization_witness :
    ((mkEWMADetector 2 1 1).run [1, 3]).1.ewma = some (([1, 3] : List ℚ).sum / ((2 : ℕ) : ℚ)) ∧
    ((mkEWMADetector 2 1 1).run [1, 3]).1.mse
      = some ((([1, 3] : List ℚ).map
          (fun x => (x - ([1, 3] : List ℚ).sum / ((2 : ℕ) : ℚ)) ^ 2)).sum / ((2 : ℕ) : ℚ)) :=
  C5_batch_initialization 2 1 1 (by decide) (by decide) (by decide) (by decide)
    [1, 3] (by decide)

/-- Claim C6: concrete spike-detection scenario.  With configuration
`(window_size = 5, smoothing_factor = 1/5, threshold_multiplier = 2)` and
input `[10,10,10,10,10,10,10,10,10,1000]` fed one value per call: calls 1-4
return `false`; call 5 completes the bootstrap with `ewma = 10` and
`mse = 0` and returns `false`; calls 6-9 return `false`; call 10
(value 1000) returns `true`. -/
theorem C6_spike_detection_scenario :
    ((mkEWMADetector 5 (1/5) 2).run [10, 10, 10, 10, 10]).1.ewma = some 10 ∧
    ((mkEWMADetector 5 (1/5) 2).run [10, 10, 10, 10, 10]).1.mse = some 0 ∧
    ((mkEWMADetector 5 (1/5) 2).run
        [10, 10, 10, 10, 10, 10, 10, 10, 10, 1000]).2
      = [false, false, false, false, false, false, false, false, false, true] := by
  refine ⟨?_, ?_, ?_⟩ <;>
    norm_num [EWMADetector.run, EWMADetector.update, mkEWMADetector, dequeAppend,
      anomalyDecision]

/-- Claim C7: for every valid configuration and every finite input sequence,
whenever the variance estimate is present after running the inputs, it is
nonnegative (batch initialization averages squares, and the smoothing step
is a convex combination of a square and the previous value; source lines
106-112). -/
theorem C7_variance_nonneg (w : ℕ) (α k : ℚ)
    (_hw : 2 ≤ w) (hα0 : 0 < α) (hα1 : α ≤ 1) (_hk : 0 < k)
    (xs : List ℚ) (m : ℚ)
    (h : ((mkEWMADetector w α k).run xs).1.mse = some m) : 0 ≤ m := by
  refine run_mse_nonneg xs (mkEWMADetector w α k) (le_of_lt hα0) hα1 ?_ m h
  intro m' hm'
  simp [mkEWMADetector] at hm'

/-- Witness for C7 at a concrete configuration and input. -/
theorem C7_variance_nonneg_witness :
    ((mkEWMADetector 2 1 1).run [0, 0]).1.mse = some 0 ∧ (0 : ℚ) ≤ 0 :=
  ⟨by norm_num [EWMADetector.run, EWMADetector.update, mkEWMADetector, dequeAppend,
      anomalyDecision],
   C7_variance_nonneg 2 1 1 (by decide) (by decide) (by decide) (by decide) [0, 0] 0
    (by norm_num [EWMADetector.run, EWMADetector.update, mkEWMADetector, dequeAppend,
      anomalyDecision])⟩

/-- Claim C8: initialization is joint and irreversible.  After running any
input sequence from a fresh detector, `ewma` and `mse` are both absent or
both present; and once they are present, running any further inputs keeps
them both present (the source only ever branches from `None` to a value,
never back; lines 84-112). -/
theorem C8_joint_irreversible (w : ℕ) (α k : ℚ) (xs ys : List ℚ) :
    (((mkEWMADetector w α k).run xs).1.ewma.isSome
        = ((mkEWMADetector w α k).run xs).1.mse.isSome) ∧
    (((mkEWMADetector w α k).run xs).1.ewma.isSome = true →
      ((((mkEWMADetector w α k).run xs).1.run ys).1.ewma.isSome = true ∧
       (((mkEWMADetector w α k).run xs).1.run ys).1.mse.isSome = true)) := by
  have hjoint := run_joint xs (mkEWMADetector w α k) rfl
  refine ⟨hjoint, fun h => ⟨run_ewma_isSome ys _ h, run_mse_isSome ys _ ?_⟩⟩
  rw [← hjoint]
  exact h

/-- Witness for C8 at a concrete configuration and inputs. -/
theorem C8_joint_irreversible_witness :
    (((mkEWMADetector 2 1 1).run [0, 0]).1.ewma.isSome
        = ((mkEWMADetector 2 1 1).run [0, 0]).1.mse.isSome) ∧
    ((((mkEWMADetector 2 1 1).run [0, 0]).1.run [0]).1.ewma.isSome = true ∧
     (((mkEWMADetector 2 1 1).run [0, 0]).1.run [0]).1.mse.isSome = true) :=
  ⟨(C8_joint_irreversible 2 1 1 [0, 0] [0]).1,
   (C8_joint_irreversible 2 1 1 [0, 0] [0]).2 (by
      norm_num [EWMADetector.run, EWMADetector.update, mkEWMADetector, dequeAppend,
        anomalyDecision])⟩

/-- Claim C9: if `smoothing_factor = 1` (accepted by the design, since the
valid range is `0 < α ≤ 1`), every steady-state `update` call sets the mean
estimate to the incoming value and the variance estimate to `0`, and
returns `false`: with `α = 1` the deviation `value - ewma` is `0` and the
threshold is `0`, so the detector can never flag an anomaly after bootstrap
(source lines 109-116). -/
theorem C9_alpha_one_never_flags (s : EWMADetector) (v e0 ms0 : ℚ)
    (hα : s.smoothing_factor = 1) (he : s.ewma = some e0) (hms : s.mse = some ms0)
    (hlen : s.window_size ≤ s.data_window.length) :
    (s.update v).1.ewma = some v ∧ (s.update v).1.mse = some 0 ∧
    (s.update v).2 = false := by
  rw [update_steady s v e0 he hlen]
  dsimp only
  rw [hα, hms]
  norm_num [anomalyDecision]

/-- Witness for C9 at a concrete steady-state detector with `α = 1`. -/
theorem C9_alpha_one_never_flags_witness :
    (({ window_size := 2, smoothing_factor := 1, threshold_multiplier := 5,
        data_window := [1, 2], ewma := some 3, mse := some 4 } : EWMADetector).update 9).1.ewma
      = some 9 ∧
    (({ window_size := 2, smoothing_factor := 1, threshold_multiplier := 5,
        data_window := [1, 2], ewma := some 3, mse := some 4 } : EWMADetector).update 9).1.mse
      = some 0 ∧
    (({ window_size := 2, smoothing_factor := 1, threshold_multiplier := 5,
        data_window := [1, 2], ewma := some 3, mse := some 4 } : EWMADetector).update 9).2
      = false :=
  C9_alpha_one_never_flags _ 9 3 4 rfl rfl rfl (by decide)

/-- Claim C10: the bootstrap blind spot ends strictly before the
initializing call: with the valid configuration `(window_size = 2,
smoothing_factor = 1/2, threshold_multiplier = 1/2)` and inputs `[0, 10]`,
call number `window_size` (the call that first fills the buffer) already
returns `true`, because its verdict is computed from the batch statistics
of the window, which include the incoming value itself (mean 5, mean
squared deviation 25, so `|10 - 5| = 5 > (1/2)·sqrt(25) = 5/2`). -/
theorem C10_initializing_call_can_flag :
    ((2 : ℕ) ≥ 2 ∧ (0 : ℚ) < 1/2 ∧ (1/2 : ℚ) ≤ 1 ∧ (0 : ℚ) < 1/2) ∧
    ((mkEWMADetector 2 (1/2) (1/2)).run [0, 10]).2 = [false, true] := by
  refine ⟨⟨by norm_num, by norm_num, by norm_num, by norm_num⟩, ?_⟩
  norm_num [EWMADetector.run, EWMADetector.update, mkEWMADetector, dequeAppend,
    anomalyDecision]
